import Mathlib

/-!
Shallow embedding of the posts resource of the blog platform
(`src/server/routes/posts.js` together with the document model and its
save middleware in `src/server/models/Post.js`).

Strings are modelled as `List Char`; the document store is a list of
post documents plus a fresh-id counter; each route handler becomes a
function from request data and store state to a result and a new state.
The store's full-text search (`$text`/`$search`) is store-internal, so
the listing operation takes the matching predicate as a parameter.
-/

namespace Blog

abbrev Str := List Char

/-- ASCII whitespace, as matched by the JS `\s` class in `split(/\s+/)`,
`replace(/\s+/g, ...)` and by `String.prototype.trim`. -/
def isWsChar (c : Char) : Bool :=
  c = ' ' || c = '\t' || c = '\n' || c = '\r' || c = '\x0b' || c = '\x0c'

/-- JS `String.prototype.trim`: strip whitespace from both ends.
Note `'abc'.trim('-')` ignores its argument, so the model's
`.trim('-')` call is plain whitespace trimming. -/
def trimWs (l : Str) : Str :=
  ((l.dropWhile isWsChar).reverse.dropWhile isWsChar).reverse

/-- Worker for `split(/\s+/)`: `inRun` records whether the previous
character belonged to a whitespace run, `cur` is the current part
(reversed).  A run in the middle emits the part before it; a leading or
trailing run yields an empty part, exactly as in JS. -/
def jsSplitWsAux : Bool → Str → Str → List Str
  | _, cur, [] => [cur.reverse]
  | inRun, cur, c :: cs =>
    if isWsChar c then
      if inRun then jsSplitWsAux true cur cs
      else cur.reverse :: jsSplitWsAux true [] cs
    else jsSplitWsAux false (c :: cur) cs

/-- Model of `content.split(/\s+/)` from the save middleware. -/
def jsSplitWs (s : Str) : List Str := jsSplitWsAux false [] s

/-- Model of `const wordCount = this.content.split(/\s+/).length`. -/
def wordCount (content : Str) : Nat := (jsSplitWs content).length

/-- Model of `this.readTime = Math.ceil(wordCount / 200)` (200 words per minute). -/
def readTimeOf (content : Str) : Nat := (wordCount content + 199) / 200

/-- The markup markers stripped for the excerpt: `#`, `*` and backtick,
from `replace(/[#*`]/g, '')`. -/
def isMarkupChar (c : Char) : Bool := c = '#' || c = '*' || c.toNat = 96

/-- Derived excerpt:
`this.content.replace(/[#*`]/g, '').substring(0, 150).trim() + '...'`. -/
def deriveExcerpt (content : Str) : Str :=
  trimWs ((content.filter (fun c => !isMarkupChar c)).take 150) ++ ['.', '.', '.']

/-- Mongoose treats a missing or empty excerpt as absent: `!this.excerpt`
is true for `undefined` and for the empty string. -/
def excerptFalsy : Option Str → Bool
  | none => true
  | some e => e.isEmpty

def isAsciiAlnum (c : Char) : Bool :=
  ('a' ≤ c && c ≤ 'z') || ('A' ≤ c && c ≤ 'Z') || ('0' ≤ c && c ≤ '9')

/-- Model of `replace(/\s+/g, '-')`: each maximal whitespace run becomes one dash. -/
def wsRunsToDashAux : Bool → Str → Str
  | _, [] => []
  | inRun, c :: cs =>
    if isWsChar c then
      if inRun then wsRunsToDashAux true cs
      else '-' :: wsRunsToDashAux true cs
    else c :: wsRunsToDashAux false cs

def wsRunsToDash (s : Str) : Str := wsRunsToDashAux false s

/-- The `-+` to `-` replacement: collapse each dash run to a single dash. -/
def dashRunsCollapseAux : Bool → Str → Str
  | _, [] => []
  | inRun, c :: cs =>
    if c = '-' then
      if inRun then dashRunsCollapseAux true cs
      else '-' :: dashRunsCollapseAux true cs
    else c :: dashRunsCollapseAux false cs

def dashRunsCollapse (s : Str) : Str := dashRunsCollapseAux false s

/-- The slug the route computes: `slugify(title, { lower: true, strict: true })`.
With `strict`, characters other than ASCII alphanumerics and whitespace are
removed, the result is trimmed, whitespace runs become the `-` separator,
and the result is lowercased. -/
def routeSlug (t : Str) : Str :=
  (wsRunsToDash (trimWs (t.filter (fun c => isAsciiAlnum c || isWsChar c)))).map Char.toLower

/-- Characters kept by the save middleware's `replace(/[^a-z0-9 -]/g, '')`
(applied after `toLowerCase()`). -/
def isSlugKeepChar (c : Char) : Bool :=
  ('a' ≤ c && c ≤ 'z') || ('0' ≤ c && c ≤ '9') || c = ' ' || c = '-'

/-- The slug the save middleware computes from the title:
`toLowerCase`, drop `[^a-z0-9 -]`, whitespace runs to `-`, collapse `-`
runs, then `trim('-')` (which, being JS `trim`, strips whitespace only).
Mapping every space to `-` and then collapsing dash runs is the same as
replacing `\s+` by `-` and then collapsing `-+`, since after the
character filter the only whitespace left is the space character. -/
def modelSlug (t : Str) : Str :=
  trimWs (dashRunsCollapse
    (((t.map Char.toLower).filter isSlugKeepChar).map (fun c => if c = ' ' then '-' else c)))

/-- The value of `Date.now()` rendered in decimal, as appended by `'-' + Date.now()`. -/
def timeSuffix (now : Nat) : Str := '-' :: Nat.toDigits 10 now

def pubStr : Str := "public".toList
def privStr : Str := "private".toList
def draftStr : Str := "draft".toList
def publishedStr : Str := "published".toList
def techStr : Str := "technical".toList
def personalStr : Str := "personal".toList
def adminStr : Str := "admin".toList

def tagEnum : List Str := [techStr, personalStr]

/-- A stored post document (`postSchema`). -/
structure Post where
  id : Nat
  title : Str
  content : Str
  excerpt : Option Str
  slug : Str
  tags : List Str
  privacy : Str
  author : Nat
  featured : Bool
  coverImage : Str
  readTime : Nat
  views : Nat
  likes : List Nat
  status : Str
  createdAt : Nat
  deriving Repr, DecidableEq

/-- The post collection plus a fresh-id source for store-assigned ids. -/
structure DB where
  posts : List Post
  nextId : Nat
  deriving Repr, DecidableEq

/-- Model of `postSchema.pre('save')`: regenerate the slug when the title path is
modified (appending `'-' + Date.now()` to a new document), and recompute
`readTime` — and the excerpt when none is set — when the content path is
modified. -/
def preSaveHook (isNew titleMod contentMod : Bool) (now : Nat) (p : Post) : Post :=
  let p1 :=
    if titleMod then
      { p with slug := if isNew then modelSlug p.title ++ timeSuffix now else modelSlug p.title }
    else p
  if contentMod then
    let p2 := { p1 with readTime := readTimeOf p1.content }
    if excerptFalsy p2.excerpt then { p2 with excerpt := some (deriveExcerpt p2.content) }
    else p2
  else p1

/-- Body of `POST /api/posts`.  The route destructures only
`title, content, tags, privacy, excerpt, coverImage, featured`; a
`status` field in the body is carried here to show it is never read. -/
structure CreateReq where
  title : Str
  content : Str
  tags : List Str
  privacy : Str
  excerpt : Option Str
  coverImage : Option Str
  featured : Option Bool
  status : Option Str
  deriving Repr, DecidableEq

/-- The express-validator chain on `POST /api/posts`: trimmed title
non-empty and at most 200 chars, content non-empty, 1-2 tags from the
enumeration, privacy in the enumeration, excerpt at most 300 chars. -/
def createReqValid (r : CreateReq) : Bool :=
  let t := trimWs r.title
  !t.isEmpty && t.length ≤ 200 &&
  !r.content.isEmpty &&
  (1 ≤ r.tags.length && r.tags.length ≤ 2) &&
  r.tags.all (fun tg => tagEnum.contains tg) &&
  (r.privacy == pubStr || r.privacy == privStr) &&
  (match r.excerpt with
   | none => true
   | some e => e.length ≤ 300)

inductive CreateResult where
  | invalid : CreateResult
  | slugTaken : CreateResult
  | created : Post → CreateResult
  deriving Repr, DecidableEq

/-- The document `new Post({...})` builds in the create route: the
destructured body fields (with the validator's trimmed title and the
route-computed slug), the schema defaults for the fields the route does
not set (`status: 'published'`, `views`/`readTime` 0, empty `likes`),
and `featured` honoured only for admins. -/
def createDoc (uid : Nat) (role : Str) (r : CreateReq) (now : Nat) (id : Nat) : Post :=
  { id := id
    title := trimWs r.title
    content := r.content
    excerpt := r.excerpt
    slug := routeSlug (trimWs r.title)
    tags := r.tags
    privacy := r.privacy
    author := uid
    featured := match r.featured with
      | some true => role == adminStr
      | _ => false
    coverImage := r.coverImage.getD []
    readTime := 0
    views := 0
    likes := []
    status := publishedStr
    createdAt := now }

/-- Route `POST /api/posts`: validate, derive the slug with `slugify`, reject
with 400 when a stored post already has that slug, otherwise build the
document and `save()` it, which runs the save middleware on the new
document. -/
def createPost (uid : Nat) (role : Str) (r : CreateReq) (now : Nat) (db : DB) :
    CreateResult × DB :=
  if !createReqValid r then (.invalid, db)
  else
    let slug0 := routeSlug (trimWs r.title)
    if db.posts.any (fun p => p.slug == slug0) then (.slugTaken, db)
    else
      let post := preSaveHook true true true now (createDoc uid role r now db.nextId)
      (.created post, { posts := db.posts ++ [post], nextId := db.nextId + 1 })

/-- Body of `PUT /api/posts/:id`: every updatable field is optional. -/
structure UpdateReq where
  title : Option Str
  content : Option Str
  tags : Option (List Str)
  privacy : Option Str
  excerpt : Option Str
  coverImage : Option Str
  status : Option Str
  featured : Option Bool
  deriving Repr, DecidableEq

/-- The express-validator chain on `PUT /api/posts/:id`: each rule only
applies when the field is present. -/
def updateReqValid (r : UpdateReq) : Bool :=
  (match r.title with
   | none => true
   | some t => 1 ≤ (trimWs t).length && (trimWs t).length ≤ 200) &&
  (match r.content with
   | none => true
   | some c => !c.isEmpty) &&
  (match r.tags with
   | none => true
   | some tg => 1 ≤ tg.length && tg.length ≤ 2 && tg.all (fun x => tagEnum.contains x)) &&
  (match r.privacy with
   | none => true
   | some pv => pv == pubStr || pv == privStr)

/-- Schema constraints that `runValidators: true` checks on the update
and that the route's own validator chain does not: the excerpt length
cap and the `status` enumeration. -/
def updateSchemaValid (r : UpdateReq) : Bool :=
  (match r.excerpt with
   | none => true
   | some e => e.length ≤ 300) &&
  (match r.status with
   | none => true
   | some s => s == draftStr || s == publishedStr)

/-- Model of `findByIdAndUpdate(id, updateFields, ...)`: set exactly the fields
present in the body (title trimmed by the validator's `.trim()`
sanitizer; `featured` only for admins).  No save middleware runs on this
path, so `slug`, `readTime` and a derived excerpt are never recomputed
here. -/
def applyUpdate (isAdmin : Bool) (r : UpdateReq) (p : Post) : Post :=
  { p with
    title := (r.title.map trimWs).getD p.title
    content := r.content.getD p.content
    tags := r.tags.getD p.tags
    privacy := r.privacy.getD p.privacy
    excerpt := match r.excerpt with
      | some e => some e
      | none => p.excerpt
    coverImage := r.coverImage.getD p.coverImage
    status := r.status.getD p.status
    featured := if isAdmin then r.featured.getD p.featured else p.featured }

inductive UpdateResult where
  | invalid : UpdateResult
  | notFound : UpdateResult
  | forbidden : UpdateResult
  | serverError : UpdateResult
  | ok : Post → UpdateResult
  deriving Repr, DecidableEq

/-- Route `PUT /api/posts/:id`: validate, look the post up, require the caller
to be the author, then apply the allow-listed fields with
`findByIdAndUpdate` (a schema-validation failure surfaces as the catch
block's server error). -/
def updatePost (uid : Nat) (role : Str) (pid : Nat) (r : UpdateReq) (db : DB) :
    UpdateResult × DB :=
  if !updateReqValid r then (.invalid, db)
  else
    match db.posts.find? (fun p => p.id == pid) with
    | none => (.notFound, db)
    | some p =>
      if p.author ≠ uid then (.forbidden, db)
      else if !updateSchemaValid r then (.serverError, db)
      else
        let p' := applyUpdate (role == adminStr) r p
        (.ok p', { db with posts := db.posts.map (fun q => if q.id == pid then p' else q) })

inductive GetResult where
  | notFound : GetResult
  | forbidden : GetResult
  | ok : Post → GetResult
  deriving Repr, DecidableEq

/-- Route `GET /api/posts/:slug`: look the post up by slug; a private post is
denied unless the caller is its author; a public post viewed by anyone
but its author gets `views` incremented by one (atomic `$inc` on the
stored document, mirrored on the returned document). -/
def getBySlug (user : Option Nat) (slug : Str) (db : DB) : GetResult × DB :=
  match db.posts.find? (fun p => p.slug == slug) with
  | none => (.notFound, db)
  | some p =>
    if p.privacy == privStr && !(user == some p.author) then (.forbidden, db)
    else if p.privacy == pubStr && !(user == some p.author) then
      (.ok { p with views := p.views + 1 },
       { db with posts :=
          (db.posts.map (fun q => if q.id == p.id then { q with views := q.views + 1 } else q)) })
    else (.ok p, db)

inductive LikeResult where
  | notFound : LikeResult
  | forbidden : LikeResult
  | ok : Bool → Nat → LikeResult
  deriving Repr, DecidableEq

/-- Route `POST /api/posts/:id/like`: look the post up, deny a private post to
non-authors, then flip membership of the caller in `likes` — an unlike
filters out every entry with the caller's id, a like appends one — and
`save()` the document (the save middleware is a no-op here since neither
title nor content is modified).  Returns the new liked state and count. -/
def toggleLike (uid : Nat) (pid : Nat) (db : DB) : LikeResult × DB :=
  match db.posts.find? (fun p => p.id == pid) with
  | none => (.notFound, db)
  | some p =>
    if p.privacy == privStr && p.author ≠ uid then (.forbidden, db)
    else
      let isLiked := p.likes.contains uid
      let newLikes := if isLiked then p.likes.filter (fun i => i ≠ uid) else p.likes ++ [uid]
      let p' := { p with likes := newLikes }
      (.ok (!isLiked) newLikes.length,
       { db with posts := db.posts.map (fun q => if q.id == pid then p' else q) })

/-- Query string of `GET /api/posts` (after integer parsing). -/
structure ListQuery where
  page : Option Nat
  limit : Option Nat
  tags : Option Str
  search : Option Str
  deriving Repr, DecidableEq

/-- The `tags` query validator:
`isIn(['technical', 'personal', 'technical,personal'])` — the whole
parameter string must be one of these three exact values. -/
def tagsParamOk : Option Str → Bool
  | none => true
  | some s => s == techStr || s == personalStr || s == (techStr ++ ',' :: personalStr)

/-- The `page` query validator: `isInt({ min: 1 })`. -/
def pageParamOk : Option Nat → Bool
  | none => true
  | some n => 1 ≤ n

/-- The `limit` query validator: `isInt({ min: 1, max: 50 })`. -/
def limitParamOk : Option Nat → Bool
  | none => true
  | some n => 1 ≤ n && n ≤ 50

/-- The express-validator chain on `GET /api/posts`. -/
def listQueryValid (q : ListQuery) : Bool :=
  tagsParamOk q.tags && pageParamOk q.page && limitParamOk q.limit

/-- The privacy part of the listing filter: anonymous callers match only
public posts; an authenticated caller matches public posts or their own
private posts (`$or` branch). -/
def visibleTo (user : Option Nat) (p : Post) : Bool :=
  match user with
  | none => p.privacy == pubStr
  | some u => p.privacy == pubStr || (p.privacy == privStr && p.author == u)

/-- Model of `split(',')` for the tags parameter. -/
def commaSplitAux : Str → Str → List Str
  | cur, [] => [cur.reverse]
  | cur, c :: cs =>
    if c = ',' then cur.reverse :: commaSplitAux [] cs
    else commaSplitAux (c :: cur) cs

def commaSplit (s : Str) : List Str := commaSplitAux [] s

/-- The `tags: { $in: tags }` part of the filter: the post's tag array
must intersect the requested tag list. -/
def tagFilterMatch (tags : Option Str) (p : Post) : Bool :=
  match tags with
  | none => true
  | some s => (commaSplit s).any (fun t => p.tags.contains t)

/-- The complete listing filter built by `GET /api/posts`:
`status: 'published'`, the privacy clause, the optional `$in` tag clause
and the optional store-side text search clause. -/
def listPred (textMatch : Str → Post → Bool) (user : Option Nat) (q : ListQuery)
    (p : Post) : Bool :=
  p.status == publishedStr && visibleTo user p && tagFilterMatch q.tags p &&
  (match q.search with
   | none => true
   | some s => textMatch s p)

/-- Insertion step for `sort({ createdAt: -1 })`. -/
def insertByCreatedDesc (p : Post) : List Post → List Post
  | [] => [p]
  | q :: qs =>
    if q.createdAt < p.createdAt then p :: q :: qs
    else q :: insertByCreatedDesc p qs

/-- Model of `sort({ createdAt: -1 })`: newest first. -/
def sortByCreatedDesc : List Post → List Post
  | [] => []
  | p :: ps => insertByCreatedDesc p (sortByCreatedDesc ps)

/-- Model of `select('-content')`: the listing payload omits the content field. -/
def stripContent (p : Post) : Post := { p with content := [] }

inductive ListResult where
  | invalid : ListResult
  | ok : List Post → Nat → ListResult
  deriving Repr, DecidableEq

/-- The page of posts in a listing result (empty on a validation
failure, which returns no posts). -/
def ListResult.page : ListResult → List Post
  | .invalid => []
  | .ok ps _ => ps

/-- Route `GET /api/posts`: validate the query, default `page`/`limit` to 1/10,
filter, sort newest-first, apply `skip`/`limit` paging and strip content.
`textMatch` stands for the document store's text-index matching used by
the `$text` clause. -/
def listPosts (textMatch : Str → Post → Bool) (user : Option Nat) (q : ListQuery)
    (db : DB) : ListResult :=
  if !listQueryValid q then .invalid
  else
    let page := q.page.getD 1
    let limit := q.limit.getD 10
    let skip := (page - 1) * limit
    let filtered := db.posts.filter (listPred textMatch user q)
    let sorted := sortByCreatedDesc filtered
    .ok (((sorted.drop skip).take limit).map stripContent) filtered.length

/-- Whether a creation attempt succeeded. -/
def CreateResult.isCreated : CreateResult → Bool
  | .created _ => true
  | _ => false

/-- The document stored by a successful creation. -/
def CreateResult.doc : CreateResult → Option Post
  | .created p => some p
  | _ => none

/-- The document returned by a successful update. -/
def UpdateResult.doc : UpdateResult → Option Post
  | .ok p => some p
  | _ => none

/-! ### Concrete fixtures used by counterexamples and witnesses -/

def userStr : Str := "user".toList

def dbEmpty : DB := { posts := [], nextId := 0 }

/-- A well-formed creation request. -/
def reqHello : CreateReq :=
  { title := "Hello World".toList
    content := "hi there".toList
    tags := [techStr]
    privacy := pubStr
    excerpt := none
    coverImage := none
    featured := none
    status := none }

/-- Content consisting of `n` copies of the word `a` separated by single
spaces. -/
def wordsN : Nat → Str
  | 0 => []
  | 1 => ['a']
  | n + 2 => 'a' :: ' ' :: wordsN (n + 1)

/-- The stored document that `createPost 7 userStr reqHello 1 dbEmpty`
produces. -/
def postHello : Post :=
  { id := 0
    title := "Hello World".toList
    content := "hi there".toList
    excerpt := some ("hi there...".toList)
    slug := "hello-world-1".toList
    tags := [techStr]
    privacy := pubStr
    author := 7
    featured := false
    coverImage := []
    readTime := 1
    views := 0
    likes := []
    status := publishedStr
    createdAt := 1 }

def dbOne : DB := { posts := [postHello], nextId := 1 }

/-- A stored private post. -/
def postSecret : Post :=
  { id := 4
    title := "Secret".toList
    content := "shh".toList
    excerpt := some ("shh...".toList)
    slug := "secret-9".toList
    tags := [personalStr]
    privacy := privStr
    author := 7
    featured := false
    coverImage := []
    readTime := 1
    views := 3
    likes := [3]
    status := publishedStr
    createdAt := 9 }

def dbTwo : DB := { posts := [postHello, postSecret], nextId := 5 }

/-- An update request that only replaces the content. -/
def updContent (c : Str) : UpdateReq :=
  { title := none, content := some c, tags := none, privacy := none,
    excerpt := none, coverImage := none, status := none, featured := none }

/-- An update request that only sets the status. -/
def updStatus (s : Str) : UpdateReq :=
  { title := none, content := none, tags := none, privacy := none,
    excerpt := none, coverImage := none, status := some s, featured := none }

def qNone : ListQuery := { page := none, limit := none, tags := none, search := none }

/-! ### General lemmas about the embedding -/

theorem trimWs_length_le (l : Str) : (trimWs l).length ≤ l.length := by
  unfold trimWs
  calc ((l.dropWhile isWsChar).reverse.dropWhile isWsChar).reverse.length
      = ((l.dropWhile isWsChar).reverse.dropWhile isWsChar).length := List.length_reverse _
    _ ≤ (l.dropWhile isWsChar).reverse.length :=
        (List.dropWhile_sublist isWsChar).length_le
    _ = (l.dropWhile isWsChar).length := List.length_reverse _
    _ ≤ l.length := (List.dropWhile_sublist isWsChar).length_le

theorem deriveExcerpt_length_le (c : Str) : (deriveExcerpt c).length ≤ 153 := by
  unfold deriveExcerpt
  rw [List.length_append]
  have h1 : (trimWs ((c.filter (fun x => !isMarkupChar x)).take 150)).length ≤ 150 :=
    le_trans (trimWs_length_le _) (List.length_take_le 150 _)
  simp only [List.length_cons, List.length_nil]
  omega

theorem preSaveHook_status (isNew t c : Bool) (now : Nat) (p : Post) :
    (preSaveHook isNew t c now p).status = p.status := by
  unfold preSaveHook
  dsimp only
  split_ifs <;> rfl

theorem preSaveHook_content (isNew t c : Bool) (now : Nat) (p : Post) :
    (preSaveHook isNew t c now p).content = p.content := by
  unfold preSaveHook
  dsimp only
  split_ifs <;> rfl

theorem preSaveHook_new_slug (c : Bool) (now : Nat) (p : Post) :
    (preSaveHook true true c now p).slug = modelSlug p.title ++ timeSuffix now := by
  unfold preSaveHook
  dsimp only
  split_ifs <;> first | rfl | simp_all

theorem preSaveHook_new_readTime (isNew t : Bool) (now : Nat) (p : Post) :
    (preSaveHook isNew t true now p).readTime = readTimeOf p.content := by
  unfold preSaveHook
  dsimp only
  split_ifs <;> first | rfl | simp_all

theorem preSaveHook_new_excerpt (isNew t : Bool) (now : Nat) (p : Post)
    (h : excerptFalsy p.excerpt = true) :
    (preSaveHook isNew t true now p).excerpt = some (deriveExcerpt p.content) := by
  unfold preSaveHook
  dsimp only
  split_ifs with h1 h2 h3 <;> first | rfl | (exfalso; simp_all)

theorem find?_map_replace (l : List Post) (pid : Nat) (p' : Post) (p : Post)
    (hfind : l.find? (fun q => q.id == pid) = some p) (hp' : p'.id = pid) :
    (l.map (fun q => if q.id == pid then p' else q)).find? (fun q => q.id == pid) =
      some p' := by
  induction l with
  | nil => simp at hfind
  | cons x xs ih =>
    by_cases hx : (x.id == pid) = true
    · simp only [List.map_cons, if_pos hx]
      rw [List.find?_cons_of_pos _ (by simp [hp'])]
    · rw [List.find?_cons_of_neg _ (by simp [hx])] at hfind
      simp only [List.map_cons, if_neg hx]
      rw [List.find?_cons_of_neg _ (by simp [hx]), ih hfind]

theorem mem_insertByCreatedDesc (x p : Post) (l : List Post) :
    x ∈ insertByCreatedDesc p l ↔ x = p ∨ x ∈ l := by
  induction l with
  | nil => simp [insertByCreatedDesc]
  | cons q qs ih =>
    unfold insertByCreatedDesc
    split
    · simp [or_comm, or_assoc, or_left_comm]
    · simp [ih]
      tauto

theorem mem_sortByCreatedDesc (x : Post) (l : List Post) :
    x ∈ sortByCreatedDesc l ↔ x ∈ l := by
  induction l with
  | nil => simp [sortByCreatedDesc]
  | cons p ps ih => simp [sortByCreatedDesc, mem_insertByCreatedDesc, ih]

theorem length_insertByCreatedDesc (p : Post) (l : List Post) :
    (insertByCreatedDesc p l).length = l.length + 1 := by
  induction l with
  | nil => rfl
  | cons q qs ih =>
    unfold insertByCreatedDesc
    split <;> simp [ih]

theorem length_sortByCreatedDesc (l : List Post) :
    (sortByCreatedDesc l).length = l.length := by
  induction l with
  | nil => rfl
  | cons p ps ih => simp [sortByCreatedDesc, length_insertByCreatedDesc, ih]

theorem filter_ne_length_add_count (l : List Nat) (u : Nat) :
    (l.filter (fun i => i ≠ u)).length + l.count u = l.length := by
  induction l with
  | nil => rfl
  | cons x xs ih =>
    by_cases hx : x = u
    · have hcount : (x :: xs).count u = xs.count u + 1 := by
        subst hx; simp [List.count_cons]
      have hfilter : (x :: xs).filter (fun i => i ≠ u) = xs.filter (fun i => i ≠ u) := by
        subst hx; simp [List.filter_cons]
      rw [hcount, hfilter]
      simp only [List.length_cons]
      omega
    · have hcount : (x :: xs).count u = xs.count u := by
        simp [List.count_cons, hx]
      have hfilter : (x :: xs).filter (fun i => i ≠ u) =
          x :: xs.filter (fun i => i ≠ u) := by
        simp [List.filter_cons, hx]
      rw [hcount, hfilter]
      simp only [List.length_cons]
      omega

/-! ### Claim C1 -/

/-- Claim C1, counterexample: creating two posts with the same title
does not fail the second time.  The save middleware stores the first
post's slug with a `-<timestamp>` suffix, so the route's duplicate check
— which compares against the unsuffixed `slugify` output — never
matches, and the second creation succeeds and stores a second post. -/
theorem create_duplicate_title_not_rejected :
    (createPost 7 userStr reqHello 1 dbEmpty).1.isCreated = true ∧
    (createPost 7 userStr reqHello 2
        (createPost 7 userStr reqHello 1 dbEmpty).2).1.isCreated = true ∧
    ((createPost 7 userStr reqHello 2
        (createPost 7 userStr reqHello 1 dbEmpty).2).2).posts.length = 2 := by
  decide

/-- Claim C1 (amended): creation is rejected — with no post stored —
exactly when some already-stored post's slug equals the `slugify` output
of the request's trimmed title; otherwise the post is stored, and the
save middleware overwrites its slug with its own derivation suffixed by
`-<creation timestamp>` (which is why two same-title creations at
distinct timestamps both succeed). -/
theorem create_slug_collision_check (uid : Nat) (role : Str) (r : CreateReq) (now : Nat)
    (db : DB) (hv : createReqValid r = true) :
    ((∃ p, p ∈ db.posts ∧ p.slug = routeSlug (trimWs r.title)) →
      createPost uid role r now db = (.slugTaken, db)) ∧
    ((∀ p, p ∈ db.posts → p.slug ≠ routeSlug (trimWs r.title)) →
      (createPost uid role r now db).1 =
        .created (preSaveHook true true true now (createDoc uid role r now db.nextId)) ∧
      (preSaveHook true true true now (createDoc uid role r now db.nextId)).slug =
        modelSlug (trimWs r.title) ++ timeSuffix now ∧
      (createPost uid role r now db).2.posts =
        db.posts ++ [preSaveHook true true true now (createDoc uid role r now db.nextId)]) := by
  constructor
  · rintro ⟨p, hp, hs⟩
    have hany : (db.posts.any (fun q => q.slug == routeSlug (trimWs r.title))) = true :=
      List.any_eq_true.mpr ⟨p, hp, by simpa using hs⟩
    simp [createPost, hv, hany]
  · intro h
    have hany : (db.posts.any (fun q => q.slug == routeSlug (trimWs r.title))) = false := by
      rw [List.any_eq_false]
      intro p hp
      simpa using h p hp
    refine ⟨?_, ?_, ?_⟩
    · simp [createPost, hv, hany]
    · rw [preSaveHook_new_slug]
      rfl
    · simp [createPost, hv, hany]

/-- Witness for the amended C1 theorem at a concrete input: on an empty
store the creation goes through and the stored slug carries the
timestamp suffix. -/
theorem create_slug_collision_check_witness :
    (createPost 7 userStr reqHello 1 dbEmpty).1 =
      .created (preSaveHook true true true 1 (createDoc 7 userStr reqHello 1 0)) ∧
    (preSaveHook true true true 1 (createDoc 7 userStr reqHello 1 0)).slug =
      modelSlug (trimWs reqHello.title) ++ timeSuffix 1 ∧
    (createPost 7 userStr reqHello 1 dbEmpty).2.posts =
      dbEmpty.posts ++ [preSaveHook true true true 1 (createDoc 7 userStr reqHello 1 0)] := by
  exact (create_slug_collision_check 7 userStr reqHello 1 dbEmpty (by decide)).2
    (by intro p hp; simp [dbEmpty] at hp)

/-! ### Claim C2 -/

/-- Claim C2: the code diverges from it.  `PUT /api/posts/:id` updates
through `findByIdAndUpdate`, which does not run the `pre('save')`
middleware, so a content change leaves `readTime` (and a derived
excerpt) stale.  Here a post created with one-word content
(`readTime = 1`) is updated by its author to 201-word content, whose
derivation gives `readTime = 2`, yet the stored and returned document
still has `readTime = 1` and the excerpt derived from the old content. -/
theorem update_content_read_time_stale :
    ((updatePost 7 userStr 0 (updContent (wordsN 201))
        (createPost 7 userStr reqHello 1 dbEmpty).2).1.doc.map Post.readTime) = some 1 ∧
    readTimeOf (wordsN 201) = 2 ∧
    ((updatePost 7 userStr 0 (updContent (wordsN 201))
        (createPost 7 userStr reqHello 1 dbEmpty).2).1.doc.map Post.content) =
      some (wordsN 201) ∧
    ((updatePost 7 userStr 0 (updContent (wordsN 201))
        (createPost 7 userStr reqHello 1 dbEmpty).2).1.doc.map Post.excerpt) =
      some (some (deriveExcerpt reqHello.content)) ∧
    deriveExcerpt (wordsN 201) ≠ deriveExcerpt reqHello.content := by
  set_option maxRecDepth 20000 in decide

/-! ### Claim C3 -/

/-- Claim C3: on a get-by-slug request that finds a post, a public post
viewed by anyone but its author has its stored `views` counter
incremented by exactly one (and the returned document shows the
incremented count); a request by the author, and any request on a
private post, leaves the store unchanged. -/
theorem get_by_slug_view_count (user : Option Nat) (s : Str) (db : DB) (p : Post)
    (hfind : db.posts.find? (fun q => q.slug == s) = some p) :
    (p.privacy = pubStr → user ≠ some p.author →
      (getBySlug user s db).1 = .ok { p with views := p.views + 1 } ∧
      (getBySlug user s db).2.posts =
        db.posts.map (fun q => if q.id == p.id then { q with views := q.views + 1 } else q)) ∧
    (user = some p.author → getBySlug user s db = (.ok p, db)) ∧
    (p.privacy = privStr → (getBySlug user s db).2 = db) := by
  refine ⟨?_, ?_, ?_⟩
  · intro hpub hne
    have h1 : (p.privacy == privStr) = false := by rw [hpub]; decide
    have h2 : (p.privacy == pubStr) = true := by rw [hpub]; decide
    have h3 : (user == some p.author) = false := by simp [hne]
    simp [getBySlug, hfind, h1, h2, h3]
  · intro hu
    simp [getBySlug, hfind, hu]
  · intro hpriv
    by_cases hu : user = some p.author
    · have h4 : (p.privacy == pubStr) = false := by rw [hpriv]; decide
      simp [getBySlug, hfind, hu, h4]
    · have h1 : (p.privacy == privStr) = true := by rw [hpriv]; decide
      have h3 : (user == some p.author) = false := by simp [hu]
      simp [getBySlug, hfind, h1, h3]

/-- Witness for the C3 theorem: an anonymous view of the stored public
post bumps its `views` from 0 to 1 in the store and in the response. -/
theorem get_by_slug_view_count_witness :
    (getBySlug none ("hello-world-1".toList) dbOne).1 =
      .ok { postHello with views := postHello.views + 1 } ∧
    (getBySlug none ("hello-world-1".toList) dbOne).2.posts =
      dbOne.posts.map
        (fun q => if q.id == postHello.id then { q with views := q.views + 1 } else q) := by
  exact (get_by_slug_view_count none ("hello-world-1".toList) dbOne postHello
    (by decide)).1 (by decide) (by simp)

/-! ### Claim C7 -/

/-- Claim C7: a get-by-slug request that finds a private post is denied
with 403 (no post returned) for anonymous callers and for authenticated
callers other than the author, while the author's request succeeds and
returns the post. -/
theorem get_by_slug_private_access (user : Option Nat) (s : Str) (db : DB) (p : Post)
    (hfind : db.posts.find? (fun q => q.slug == s) = some p)
    (hpriv : p.privacy = privStr) :
    (user ≠ some p.author → (getBySlug user s db).1 = .forbidden) ∧
    (getBySlug (some p.author) s db).1 = .ok p := by
  constructor
  · intro hne
    have h1 : (p.privacy == privStr) = true := by rw [hpriv]; decide
    have h3 : (user == some p.author) = false := by simp [hne]
    simp [getBySlug, hfind, h1, h3]
  · have h4 : (p.privacy == pubStr) = false := by rw [hpriv]; decide
    simp [getBySlug, hfind, h4]

/-- Witness for the C7 theorem: a different authenticated user is denied
the stored private post, and its author receives it. -/
theorem get_by_slug_private_access_witness :
    (getBySlug (some 3) ("secret-9".toList) dbTwo).1 = .forbidden ∧
    (getBySlug (some postSecret.author) ("secret-9".toList) dbTwo).1 = .ok postSecret := by
  have h := get_by_slug_private_access (some 3) ("secret-9".toList) dbTwo postSecret
    (by decide) (by decide)
  exact ⟨h.1 (by decide), h.2⟩

/-! ### Claims C4 and C9 (toggle like) -/

theorem contains_eq_false_of_not_mem (l : List Nat) (a : Nat) (h : a ∉ l) :
    l.contains a = false := by
  cases hc : l.contains a
  · rfl
  · exact absurd (List.elem_iff.mp hc) h

/-- One authorized toggle by a user already in `likes`: every occurrence
of the user is filtered out of the stored document and the response
reports the unliked state. -/
theorem toggleLike_step_unlike (uid pid : Nat) (db : DB) (p : Post)
    (hfind : db.posts.find? (fun q => q.id == pid) = some p)
    (hauth : p.privacy = privStr → p.author = uid)
    (hc : p.likes.contains uid = true) :
    toggleLike uid pid db =
      (.ok false (p.likes.filter (fun i => i ≠ uid)).length,
       { db with posts :=
          (db.posts.map (fun q => if q.id == pid then
            { p with likes := p.likes.filter (fun i => i ≠ uid) } else q)) }) := by
  have hcond : ¬((p.privacy == privStr && decide (p.author ≠ uid)) = true) := by
    by_cases hp : p.privacy = privStr
    · simp [hauth hp]
    · simp [hp]
  simp only [toggleLike, hfind]
  rw [if_neg hcond]
  simp only [hc]
  rfl

/-- One authorized toggle by a user absent from `likes`: exactly one
entry for the user is appended to the stored document and the response
reports the liked state. -/
theorem toggleLike_step_like (uid pid : Nat) (db : DB) (p : Post)
    (hfind : db.posts.find? (fun q => q.id == pid) = some p)
    (hauth : p.privacy = privStr → p.author = uid)
    (hc : p.likes.contains uid = false) :
    toggleLike uid pid db =
      (.ok true (p.likes ++ [uid]).length,
       { db with posts :=
          (db.posts.map (fun q => if q.id == pid then
            { p with likes := p.likes ++ [uid] } else q)) }) := by
  have hcond : ¬((p.privacy == privStr && decide (p.author ≠ uid)) = true) := by
    by_cases hp : p.privacy = privStr
    · simp [hauth hp]
    · simp [hp]
  simp only [toggleLike, hfind]
  rw [if_neg hcond]
  simp only [hc]
  rfl

/-- Claim C9: after one authorized toggle the stored document holds at
most one `likes` entry for the caller; an unlike removes every
occurrence, and a like on an absent caller appends exactly one entry. -/
theorem toggle_like_single_entry (uid pid : Nat) (db : DB) (p : Post)
    (hfind : db.posts.find? (fun q => q.id == pid) = some p)
    (hauth : p.privacy = privStr → p.author = uid) :
    ∃ p', ((toggleLike uid pid db).2).posts.find? (fun q => q.id == pid) = some p' ∧
      p'.likes.count uid ≤ 1 ∧
      (uid ∈ p.likes → p'.likes = p.likes.filter (fun i => i ≠ uid)) ∧
      (uid ∉ p.likes → p'.likes = p.likes ++ [uid] ∧ p'.likes.count uid = 1) := by
  have hid : p.id = pid := by simpa using List.find?_some hfind
  by_cases hm : uid ∈ p.likes
  · have hc : p.likes.contains uid = true := List.elem_iff.mpr hm
    have hstep := toggleLike_step_unlike uid pid db p hfind hauth hc
    refine ⟨{ p with likes := p.likes.filter (fun i => i ≠ uid) }, ?_, ?_, ?_, ?_⟩
    · rw [hstep]
      exact find?_map_replace db.posts pid _ p hfind hid
    · show (p.likes.filter (fun i => i ≠ uid)).count uid ≤ 1
      have h0 : (p.likes.filter (fun i => i ≠ uid)).count uid = 0 := by
        rw [List.count_eq_zero]
        intro hmem
        rw [List.mem_filter] at hmem
        simp at hmem
      omega
    · intro _
      rfl
    · intro hm'
      exact absurd hm hm'
  · have hc : p.likes.contains uid = false := contains_eq_false_of_not_mem _ _ hm
    have hstep := toggleLike_step_like uid pid db p hfind hauth hc
    refine ⟨{ p with likes := p.likes ++ [uid] }, ?_, ?_, ?_, ?_⟩
    · rw [hstep]
      exact find?_map_replace db.posts pid _ p hfind hid
    · simp [List.count_append, List.count_singleton_self, List.count_eq_zero.mpr hm]
    · intro hm'
      exact absurd hm' hm
    · intro _
      refine ⟨rfl, ?_⟩
      simp [List.count_append, List.count_singleton_self, List.count_eq_zero.mpr hm]

/-- Witness for the C9 theorem: the author likes their own private post
(previously liked once by user 3): one entry for the author is appended. -/
theorem toggle_like_single_entry_witness :
    ∃ p', ((toggleLike 7 4 dbTwo).2).posts.find? (fun q => q.id == 4) = some p' ∧
      p'.likes.count 7 ≤ 1 ∧
      (7 ∈ postSecret.likes → p'.likes = postSecret.likes.filter (fun i => i ≠ 7)) ∧
      (7 ∉ postSecret.likes → p'.likes = postSecret.likes ++ [7] ∧ p'.likes.count 7 = 1) := by
  exact toggle_like_single_entry 7 4 dbTwo postSecret (by decide) (fun _ => by decide)

/-- Claim C4: toggling like twice in sequence by one authorized user
returns the stored document's `likes` to the original membership and
count (the post is assumed to satisfy the data model's unique-membership
invariant for that user). -/
theorem toggle_like_round_trip (uid pid : Nat) (db : DB) (p : Post)
    (hfind : db.posts.find? (fun q => q.id == pid) = some p)
    (hauth : p.privacy = privStr → p.author = uid)
    (hone : p.likes.count uid ≤ 1) :
    ∃ p'', ((toggleLike uid pid (toggleLike uid pid db).2).2).posts.find?
        (fun q => q.id == pid) = some p'' ∧
      (∀ x, x ∈ p''.likes ↔ x ∈ p.likes) ∧
      p''.likes.length = p.likes.length := by
  have hid : p.id = pid := by simpa using List.find?_some hfind
  by_cases hm : uid ∈ p.likes
  · have hc : p.likes.contains uid = true := List.elem_iff.mpr hm
    have hstep1 := toggleLike_step_unlike uid pid db p hfind hauth hc
    have hfind1 : ((toggleLike uid pid db).2).posts.find? (fun q => q.id == pid) =
        some { p with likes := p.likes.filter (fun i => i ≠ uid) } := by
      rw [hstep1]
      exact find?_map_replace db.posts pid _ p hfind hid
    have hm1 : uid ∉ p.likes.filter (fun i => i ≠ uid) := by
      intro hx
      rw [List.mem_filter] at hx
      simp at hx
    have hstep2 := toggleLike_step_like uid pid (toggleLike uid pid db).2
      { p with likes := p.likes.filter (fun i => i ≠ uid) } hfind1 hauth
      (contains_eq_false_of_not_mem _ _ hm1)
    refine ⟨{ p with likes := p.likes.filter (fun i => i ≠ uid) ++ [uid] }, ?_, ?_, ?_⟩
    · rw [hstep2]
      exact find?_map_replace _ pid _ _ hfind1 hid
    · intro x
      show x ∈ p.likes.filter (fun i => i ≠ uid) ++ [uid] ↔ x ∈ p.likes
      constructor
      · intro hx
        rcases List.mem_append.mp hx with hx | hx
        · exact (List.mem_filter.mp hx).1
        · rw [List.mem_singleton] at hx
          subst hx
          exact hm
      · intro hx
        by_cases hxu : x = uid
        · subst hxu
          exact List.mem_append.mpr (Or.inr (by simp))
        · exact List.mem_append.mpr (Or.inl (List.mem_filter.mpr ⟨hx, by simp [hxu]⟩))
    · show (p.likes.filter (fun i => i ≠ uid) ++ [uid]).length = p.likes.length
      have h1 := filter_ne_length_add_count p.likes uid
      have h2 : 0 < p.likes.count uid := List.count_pos_iff.mpr hm
      simp only [List.length_append, List.length_cons, List.length_nil]
      omega
  · have hc : p.likes.contains uid = false := contains_eq_false_of_not_mem _ _ hm
    have hstep1 := toggleLike_step_like uid pid db p hfind hauth hc
    have hfind1 : ((toggleLike uid pid db).2).posts.find? (fun q => q.id == pid) =
        some { p with likes := p.likes ++ [uid] } := by
      rw [hstep1]
      exact find?_map_replace db.posts pid _ p hfind hid
    have hc1 : (p.likes ++ [uid]).contains uid = true :=
      List.elem_iff.mpr (List.mem_append.mpr (Or.inr (by simp)))
    have hstep2 := toggleLike_step_unlike uid pid (toggleLike uid pid db).2
      { p with likes := p.likes ++ [uid] } hfind1 hauth hc1
    have hfil : (p.likes ++ [uid]).filter (fun i => i ≠ uid) = p.likes := by
      rw [List.filter_append]
      have h1 : p.likes.filter (fun i => i ≠ uid) = p.likes := by
        rw [List.filter_eq_self]
        intro a ha
        rw [decide_eq_true_iff]
        intro he
        exact hm (he ▸ ha)
      have h2 : ([uid] : List Nat).filter (fun i => i ≠ uid) = [] := by simp
      rw [h1, h2, List.append_nil]
    refine ⟨{ p with likes := (p.likes ++ [uid]).filter (fun i => i ≠ uid) }, ?_, ?_, ?_⟩
    · rw [hstep2]
      exact find?_map_replace _ pid _ _ hfind1 hid
    · intro x
      show x ∈ (p.likes ++ [uid]).filter (fun i => i ≠ uid) ↔ x ∈ p.likes
      rw [hfil]
    · show ((p.likes ++ [uid]).filter (fun i => i ≠ uid)).length = p.likes.length
      rw [hfil]

/-- Witness for the C4 theorem: user 3 toggles twice on the stored
public post (initially unliked): membership and count return to the
original empty state. -/
theorem toggle_like_round_trip_witness :
    ∃ p'', ((toggleLike 3 0 (toggleLike 3 0 dbOne).2).2).posts.find?
        (fun q => q.id == 0) = some p'' ∧
      (∀ x, x ∈ p''.likes ↔ x ∈ postHello.likes) ∧
      p''.likes.length = postHello.likes.length := by
  exact toggle_like_round_trip 3 0 dbOne postHello (by decide)
    (fun h => absurd h (by decide)) (by decide)

/-! ### Claim C5 -/

def qTagPersonal : ListQuery :=
  { page := none, limit := none, tags := some personalStr, search := none }

/-- Claim C5, counterexample: the returned set is not always exactly the
published posts visible to the caller.  With a `tags=personal` filter,
the listing on a store holding one published, publicly visible
`technical` post returns no posts at all. -/
theorem list_posts_not_exactly_visible :
    (listPosts (fun _ _ => true) none qTagPersonal dbOne).page = [] ∧
    postHello ∈ dbOne.posts ∧ postHello.status = publishedStr ∧
    visibleTo none postHello = true := by
  decide

/-- Claim C5 (amended): every returned post is a content-stripped copy
of a stored post that is published and visible to the caller (never a
draft, never another user's private post); and when the request carries
no tag or search filter and the first page is large enough to hold every
match, every published visible post is returned. -/
theorem list_posts_visibility (tm : Str → Post → Bool) (user : Option Nat)
    (q : ListQuery) (db : DB) :
    (∀ p, p ∈ (listPosts tm user q db).page →
      ∃ orig, orig ∈ db.posts ∧ p = stripContent orig ∧
        orig.status = publishedStr ∧ visibleTo user orig = true) ∧
    (listQueryValid q = true → q.tags = none → q.search = none → q.page.getD 1 = 1 →
      (db.posts.filter (listPred tm user q)).length ≤ q.limit.getD 10 →
      ∀ orig, orig ∈ db.posts → orig.status = publishedStr →
        visibleTo user orig = true →
        stripContent orig ∈ (listPosts tm user q db).page) := by
  constructor
  · intro p hp
    by_cases hq : listQueryValid q = true
    · have hpage : (listPosts tm user q db).page =
          (((sortByCreatedDesc (db.posts.filter (listPred tm user q))).drop
            ((q.page.getD 1 - 1) * q.limit.getD 10)).take (q.limit.getD 10)).map
              stripContent := by
        simp [listPosts, hq, ListResult.page]
      rw [hpage] at hp
      obtain ⟨orig, horig, hstrip⟩ := List.mem_map.mp hp
      have h1 : orig ∈ sortByCreatedDesc (db.posts.filter (listPred tm user q)) :=
        List.drop_subset _ _ (List.take_subset _ _ horig)
      have h2 := (mem_sortByCreatedDesc _ _).mp h1
      rw [List.mem_filter] at h2
      have hpred := h2.2
      simp only [listPred, Bool.and_eq_true, beq_iff_eq] at hpred
      exact ⟨orig, h2.1, hstrip.symm, hpred.1.1.1, hpred.1.1.2⟩
    · have hinv : listPosts tm user q db = .invalid := by
        rw [Bool.not_eq_true] at hq
        simp [listPosts, hq]
      rw [hinv] at hp
      simp [ListResult.page] at hp
  · intro hq htags hsearch hpage1 hlen orig horig hstatus hvis
    have hpred : listPred tm user q orig = true := by
      simp [listPred, htags, hsearch, tagFilterMatch, hstatus, hvis]
    have hmems : orig ∈ sortByCreatedDesc (db.posts.filter (listPred tm user q)) :=
      (mem_sortByCreatedDesc _ _).mpr (List.mem_filter.mpr ⟨horig, hpred⟩)
    have hskip : (q.page.getD 1 - 1) * q.limit.getD 10 = 0 := by
      rw [hpage1]
      simp
    have hlen2 : (sortByCreatedDesc (db.posts.filter (listPred tm user q))).length ≤
        q.limit.getD 10 := by
      rw [length_sortByCreatedDesc]
      exact hlen
    have hpage : (listPosts tm user q db).page =
        (((sortByCreatedDesc (db.posts.filter (listPred tm user q))).drop
          ((q.page.getD 1 - 1) * q.limit.getD 10)).take (q.limit.getD 10)).map
            stripContent := by
      simp [listPosts, hq, ListResult.page]
    rw [hpage, hskip, List.drop_zero, List.take_of_length_le hlen2]
    exact List.mem_map.mpr ⟨orig, hmems, rfl⟩

/-- Witness for the amended C5 theorem: an unfiltered anonymous listing
on the one-post store returns the stored public published post. -/
theorem list_posts_visibility_witness :
    stripContent postHello ∈ (listPosts (fun _ _ => true) none qNone dbOne).page := by
  exact (list_posts_visibility (fun _ _ => true) none qNone dbOne).2 (by decide) rfl rfl
    (by decide) (by decide) postHello (by decide) (by decide) (by decide)

/-! ### Claim C6 -/

/-- Claim C6: a successful creation with no supplied excerpt stores
`readTime` equal to the content's split-word count divided by 200 and
rounded up, and stores the excerpt derived from the content (markers
stripped, 150-char cut, trimmed, ellipsis appended), which is at most
153 characters long. -/
theorem create_derives_read_time_and_excerpt (uid : Nat) (role : Str) (r : CreateReq)
    (now : Nat) (db : DB) (hv : createReqValid r = true) (hex : r.excerpt = none)
    (hfree : ∀ p, p ∈ db.posts → p.slug ≠ routeSlug (trimWs r.title)) :
    (createPost uid role r now db).1 =
      .created (preSaveHook true true true now (createDoc uid role r now db.nextId)) ∧
    (preSaveHook true true true now (createDoc uid role r now db.nextId)).readTime =
      (wordCount r.content + 199) / 200 ∧
    (preSaveHook true true true now (createDoc uid role r now db.nextId)).excerpt =
      some (deriveExcerpt r.content) ∧
    (deriveExcerpt r.content).length ≤ 153 := by
  have hany : (db.posts.any (fun q => q.slug == routeSlug (trimWs r.title))) = false := by
    rw [List.any_eq_false]
    intro p hp
    simpa using hfree p hp
  refine ⟨by simp [createPost, hv, hany], ?_, ?_, deriveExcerpt_length_le r.content⟩
  · rw [preSaveHook_new_readTime]
    rfl
  · rw [preSaveHook_new_excerpt]
    · rfl
    · rw [show (createDoc uid role r now db.nextId).excerpt = r.excerpt from rfl, hex]
      rfl

/-- A valid creation request whose content is 1000 words long. -/
def reqLong : CreateReq :=
  { title := "Long post".toList
    content := wordsN 1000
    tags := [personalStr]
    privacy := pubStr
    excerpt := none
    coverImage := none
    featured := none
    status := none }

/-- Witness for the C6 theorem: 1000 words of content yield
`readTime = 5` and an excerpt of at most 153 characters. -/
theorem create_derives_read_time_and_excerpt_witness :
    (createPost 7 userStr reqLong 11 dbEmpty).1 =
      .created (preSaveHook true true true 11 (createDoc 7 userStr reqLong 11 dbEmpty.nextId)) ∧
    (preSaveHook true true true 11 (createDoc 7 userStr reqLong 11 dbEmpty.nextId)).readTime = 5 ∧
    (deriveExcerpt reqLong.content).length ≤ 153 := by
  obtain ⟨h1, h2, h3, h4⟩ := create_derives_read_time_and_excerpt 7 userStr reqLong 11
    dbEmpty (by decide) rfl (by intro p hp; simp [dbEmpty] at hp)
  refine ⟨h1, ?_, h4⟩
  rw [h2]
  set_option maxRecDepth 40000 in decide

/-! ### Claim C8 -/

def qTagReordered : ListQuery :=
  { page := none, limit := none, tags := some ("personal,technical".toList), search := none }

/-- Claim C8, counterexample: the comma-joined subset
`personal,technical` — a reordering of the accepted `technical,personal`
— fails the `isIn` whole-string check and the request is rejected as a
validation failure. -/
theorem list_tags_reordered_rejected :
    listPosts (fun _ _ => true) none qTagReordered dbOne = .invalid ∧
    tagsParamOk (some ("personal,technical".toList)) = false := by
  decide

/-- Claim C8 (amended): the `tags` parameter passes validation exactly
for the three literal values `technical`, `personal` and
`technical,personal`; a request using one of them (with valid paging) is
never rejected as a validation failure. -/
theorem list_tags_validation (tm : Str → Post → Bool) (user : Option Nat) (q : ListQuery)
    (db : DB)
    (ht : q.tags = none ∨ q.tags = some techStr ∨ q.tags = some personalStr ∨
      q.tags = some (techStr ++ ',' :: personalStr))
    (hp : pageParamOk q.page = true) (hl : limitParamOk q.limit = true) :
    listPosts tm user q db ≠ .invalid := by
  have htok : tagsParamOk q.tags = true := by
    rcases ht with h | h | h | h <;> rw [h] <;> decide
  have hq : listQueryValid q = true := by
    simp [listQueryValid, htok, hp, hl]
  simp [listPosts, hq]

/-- Witness for the amended C8 theorem: `tags=technical,personal` (the
accepted order) is not rejected. -/
theorem list_tags_validation_witness :
    listPosts (fun _ _ => true) none
      { page := none, limit := none, tags := some (techStr ++ ',' :: personalStr),
        search := none } dbOne ≠ .invalid := by
  exact list_tags_validation (fun _ _ => true) none
    { page := none, limit := none, tags := some (techStr ++ ',' :: personalStr),
      search := none } dbOne (Or.inr (Or.inr (Or.inr rfl))) rfl rfl

/-! ### Claim C10 -/

/-- Claim C10: the create route never reads a `status` field from the
body — two requests differing only in `status` produce identical results
— and every successfully created post is stored with status
`published`; a draft arises only through the update route, which can set
`status` to `draft` for the author. -/
theorem create_ignores_status (uid : Nat) (role : Str) (r : CreateReq) (now : Nat)
    (db : DB) (s1 s2 : Option Str) :
    createPost uid role { r with status := s1 } now db =
      createPost uid role { r with status := s2 } now db ∧
    (∀ q0, (createPost uid role r now db).1 = .created q0 → q0.status = publishedStr) ∧
    (∀ pid p db2, db2.posts.find? (fun x => x.id == pid) = some p → p.author = uid →
      ∃ p', (updatePost uid role pid (updStatus draftStr) db2).1 = .ok p' ∧
        p'.status = draftStr) := by
  refine ⟨rfl, ?_, ?_⟩
  · intro q0 h
    by_cases hv : createReqValid r = true
    · by_cases hany : (db.posts.any (fun x => x.slug == routeSlug (trimWs r.title))) = true
      · simp [createPost, hv, hany] at h
      · rw [Bool.not_eq_true] at hany
        simp [createPost, hv, hany] at h
        rw [← h, preSaveHook_status]
        rfl
    · rw [Bool.not_eq_true] at hv
      simp [createPost, hv] at h
  · intro pid p db2 hfind hauthor
    have hval : updateReqValid (updStatus draftStr) = true := by decide
    have hschema : updateSchemaValid (updStatus draftStr) = true := by decide
    refine ⟨applyUpdate (role == adminStr) (updStatus draftStr) p, ?_, ?_⟩
    · simp [updatePost, hval, hfind, hauthor, hschema]
    · simp [applyUpdate, updStatus]

/-- Witness for the C10 theorem: a create request carrying
`status: draft` behaves like one without it, and the author's follow-up
update does set the stored post to draft. -/
theorem create_ignores_status_witness :
    createPost 7 userStr { reqHello with status := some draftStr } 1 dbEmpty =
      createPost 7 userStr { reqHello with status := none } 1 dbEmpty ∧
    ∃ p', (updatePost 7 userStr 0 (updStatus draftStr) dbOne).1 = .ok p' ∧
      p'.status = draftStr := by
  have h := create_ignores_status 7 userStr reqHello 1 dbEmpty (some draftStr) none
  exact ⟨h.1, h.2.2 0 postHello dbOne (by decide) (by decide)⟩

end Blog
